import Mathlib

/-!
Shallow embedding of the `layout_autofix` repository (a macOS keyboard-layout
auto-fixer) for checking its natural-language specification.

Pure code (`detector.py`) is translated directly.  The effectful pipeline in
`app.py` is embedded by making the outcomes of the OS-facing primitives
(clipboard reads/writes, accessibility calls, keystroke injection) explicit
parameters, and real time is modelled by a discrete monotonic clock whose unit
is one second-fraction tick; `time.sleep(i)` advances the clock by `i` ticks and
the clipboard is a function from ticks to its observable content.
-/

/-! ## Layout mapper (`layout_autofix/detector.py`) -/

/-- The canonical EN-to-RU character table `EN_TO_RU` of `detector.py`,
kept in source order as an association list (all keys are distinct). -/
def EN_TO_RU : List (Char × Char) := [
  ('`', 'ё'), ('q', 'й'), ('w', 'ц'), ('e', 'у'), ('r', 'к'), ('t', 'е'),
  ('y', 'н'), ('u', 'г'), ('i', 'ш'), ('o', 'щ'), ('p', 'з'), ('[', 'х'),
  (']', 'ъ'), ('a', 'ф'), ('s', 'ы'), ('d', 'в'), ('f', 'а'), ('g', 'п'),
  ('h', 'р'), ('j', 'о'), ('k', 'л'), ('l', 'д'), (';', 'ж'), ('\'', 'э'),
  ('z', 'я'), ('x', 'ч'), ('c', 'с'), ('v', 'м'), ('b', 'и'), ('n', 'т'),
  ('m', 'ь'), (',', 'б'), ('.', 'ю'), ('/', '.')]

/-- The inverse table `RU_TO_EN = {value: key for key, value in EN_TO_RU.items()}`.
All values of `EN_TO_RU` are distinct, so the comprehension is the plain swap. -/
def RU_TO_EN : List (Char × Char) := EN_TO_RU.map (fun p => (p.2, p.1))

/-- Python `str.isupper` for one character, restricted to the Latin and
Cyrillic ranges this program manipulates (ASCII `A`-`Z`, Cyrillic `А`-`Я`
U+0410-U+042F, and `Ё` U+0401); every other character counts as caseless. -/
def pyIsUpper (c : Char) : Bool :=
  (65 ≤ c.toNat && c.toNat ≤ 90) || (1040 ≤ c.toNat && c.toNat ≤ 1071) ||
    (c.toNat == 1025)

/-- Python `str.islower` for one character, restricted to the same ranges
(ASCII `a`-`z`, Cyrillic `а`-`я` U+0430-U+044F, and `ё` U+0451). -/
def pyIsLower (c : Char) : Bool :=
  (97 ≤ c.toNat && c.toNat ≤ 122) || (1072 ≤ c.toNat && c.toNat ≤ 1103) ||
    (c.toNat == 1105)

/-- Python `str.lower` for one character over the same restricted ranges;
characters outside them are returned unchanged. -/
def pyLower (c : Char) : Char :=
  if pyIsUpper c then
    Char.ofNat (if c.toNat == 1025 then 1105 else c.toNat + 32)
  else c

/-- Python `str.upper` for one character over the same restricted ranges;
characters outside them are returned unchanged. -/
def pyUpper (c : Char) : Char :=
  if pyIsLower c then
    Char.ofNat (if c.toNat == 1105 then 1025 else c.toNat - 32)
  else c

/-- One loop iteration of `switch_layout`: look the lowercased character up in
the chosen table; on a miss the character passes through, on a hit the stored
character is uppercased exactly when the input was uppercase. -/
def switchChar (mapping : List (Char × Char)) (ch : Char) : Char :=
  match mapping.lookup (pyLower ch) with
  | none => ch
  | some base => if pyIsUpper ch then pyUpper base else base

/-- `switch_layout(word, to_layout)` of `detector.py`.  `none` models the
`ValueError` raised when `to_layout` is neither `"EN"` nor `"RUS"`; otherwise
the word is mapped character by character with `EN_TO_RU` (target `"RUS"`)
or `RU_TO_EN` (target `"EN"`). -/
def switch_layout (word : String) (to_layout : String) : Option String :=
  if to_layout == "EN" || to_layout == "RUS" then
    some (String.mk (word.data.map
      (switchChar (if to_layout == "RUS" then EN_TO_RU else RU_TO_EN))))
  else
    none

/-! ## Layout watcher (`AutoLayoutFixer._poll_layout_once`) -/

/-- One watcher poll step `_poll_layout_once(previous_layout)`.  `current` is
the value returned by `self._get_current_layout()` on this iteration (`none`
models an unreadable layout).  The result is the new previous reading together
with the list of conversion triggers fired (arguments passed to
`_schedule_selection_conversion`) during the step. -/
def poll_layout_once (previous : Option String) (current : Option String) :
    Option String × List String :=
  match current with
  | none => (previous, [])
  | some c =>
    match previous with
    | none => (some c, [])
    | some p => if c ≠ p then (some c, [c]) else (some c, [])

/-! ## In-flight guard (`AutoLayoutFixer._schedule_selection_conversion`) -/

/-- Process state relevant to the in-flight guard: the `_conversion_active`
event flag and the number of currently running conversion tasks. -/
structure GuardState where
  active : Bool
  running : Nat
deriving DecidableEq

/-- `_schedule_selection_conversion` under the lock: if `_conversion_active`
is set the trigger is dropped and nothing changes; otherwise the flag is set
and one pipeline task is spawned.  The boolean reports whether a task was
spawned. -/
def schedule_selection_conversion (s : GuardState) : GuardState × Bool :=
  if s.active then (s, false)
  else ({ active := true, running := s.running + 1 }, true)

/-- End of one pipeline task: its `finally` block clears `_conversion_active`
unconditionally and the task stops running. -/
def finish_conversion (s : GuardState) : GuardState :=
  { active := false, running := s.running - 1 }

/-- Events touching the guard: a conversion trigger from the watcher, or a
running pipeline task finishing. -/
inductive GuardEvent where
  | trigger
  | finish
deriving DecidableEq

/-- One guard transition. -/
def stepGuard (s : GuardState) : GuardEvent → GuardState
  | .trigger => (schedule_selection_conversion s).1
  | .finish => finish_conversion s

/-- Run a sequence of guard events from a state. -/
def runGuard (s : GuardState) : List GuardEvent → GuardState
  | [] => s
  | e :: es => runGuard (stepGuard s e) es

/-- Guard state at process start: flag clear, no conversion running. -/
def initGuardState : GuardState := { active := false, running := 0 }

/-! ## Conversion pipeline (`AutoLayoutFixer._convert_selected_text_after_switch`) -/

/-- Observable actions of one pipeline run: the texts written back to the
clipboard by the `finally` block (`restores`), the arguments of calls to
`_replace_selected_text` (`replaceCalls`), and whether `_conversion_active`
was cleared at the end (`guardCleared`). -/
structure PipelineTrace where
  restores : List String
  replaceCalls : List String
  guardCleared : Bool
deriving DecidableEq

/-- `_convert_selected_text_after_switch(target_layout)`.

`captureResult` is the outcome of `self._capture_selected_text()`:
`.error` models an exception escaping the capture (the tuple assignment
never happens, so `previous_clipboard` stays `None`), `.ok (sel, snap)`
the returned pair `(selected_text, previous_clipboard)`.  `replaceResult`
is the outcome of `self._replace_selected_text(converted)` when that call
is reached: `.error` an exception, `.ok b` the returned boolean.  The
`except` clause swallows every exception and the `finally` block restores
`previous_clipboard` when it is not `None` and clears the guard. -/
def convert_selected_text_after_switch
    (captureResult : Except Unit (Option String × Option String))
    (replaceResult : Except Unit Bool)
    (target : String) : PipelineTrace :=
  match captureResult with
  | .error _ => ⟨[], [], true⟩
  | .ok (sel, snap) =>
    match sel with
    | none => ⟨snap.toList, [], true⟩
    | some text =>
      if text = "" then ⟨snap.toList, [], true⟩
      else
        match switch_layout text target with
        | none => ⟨snap.toList, [], true⟩
        | some conv =>
          if conv = text then ⟨snap.toList, [], true⟩
          else
            match replaceResult with
            | .error _ => ⟨snap.toList, [conv], true⟩
            | .ok _ => ⟨snap.toList, [conv], true⟩

/-- The clipboard snapshot the pipeline recorded during capture: the
`previous_clipboard` component when capture returned, nothing when capture
raised. -/
def recordedSnapshot
    (captureResult : Except Unit (Option String × Option String)) :
    Option String :=
  match captureResult with
  | .error _ => none
  | .ok (_, snap) => snap

/-! ## Clipboard-mediated replace (`AutoLayoutFixer._replace_selected_text`) -/

/-- Observable actions of one `_replace_selected_text(text)` call: the texts
passed to `_write_clipboard`, whether the cmd-V paste keystroke was sent,
and the returned boolean. -/
structure ReplaceTrace where
  clipboardWrites : List String
  pasteSent : Bool
  result : Bool
deriving DecidableEq

/-- `_replace_selected_text(text)`.  `axWriteOk` is the result of
`self._replace_selected_text_ax(text)` and `clipboardWriteOk` the result of
`self._write_clipboard(text)` (that call only happens when the accessibility
write failed; the paste keystroke only after the clipboard write succeeded). -/
def replace_selected_text (axWriteOk : Bool) (clipboardWriteOk : Bool)
    (text : String) : ReplaceTrace :=
  if axWriteOk then ⟨[], false, true⟩
  else if clipboardWriteOk then ⟨[text], true, true⟩
  else ⟨[text], false, false⟩

/-! ## Accessibility permission check (`AutoLayoutFixer._check_ax_permission`) -/

/-- Environment of one `_check_ax_permission(prompt=...)` call: whether the
`HIServices` import succeeded, the live `AXIsProcessTrusted()` reading at
this moment (`false` also covers the call raising), the `prompt` keyword
argument, and whether `AXIsProcessTrustedWithOptions` exists. -/
structure AxCheckInput where
  hiAvailable : Bool
  trusted : Bool
  promptFlag : Bool
  hasPromptFn : Bool
deriving DecidableEq

/-- Result of one `_check_ax_permission` call: the returned boolean, the new
value of `self._ax_warning_logged`, whether the warning was logged by this
call, and whether `AXIsProcessTrustedWithOptions` (the OS permission prompt)
was invoked by this call. -/
structure AxCheckResult where
  granted : Bool
  warningLogged : Bool
  warned : Bool
  promptInvoked : Bool
deriving DecidableEq

/-- `_check_ax_permission(prompt=...)` given the current
`self._ax_warning_logged` flag. -/
def check_ax_permission (warningLogged : Bool) (i : AxCheckInput) :
    AxCheckResult :=
  if !i.hiAvailable then ⟨false, warningLogged, false, false⟩
  else if i.trusted then ⟨true, warningLogged, false, false⟩
  else ⟨false, true, !warningLogged, i.promptFlag && i.hasPromptFn⟩

/-- A whole process run, seen as the sequence of `_check_ax_permission` calls
it performs (the startup check plus one call per accessibility read failing
with `kAXErrorAPIDisabled`).  Returns the final `_ax_warning_logged` flag,
the total number of warnings logged and the total number of OS prompt
invocations. -/
def runAxChecks (warningLogged : Bool) :
    List AxCheckInput → Bool × Nat × Nat
  | [] => (warningLogged, 0, 0)
  | i :: rest =>
    let r := check_ax_permission warningLogged i
    let rec2 := runAxChecks r.warningLogged rest
    (rec2.1, (if r.warned then 1 else 0) + rec2.2.1,
      (if r.promptInvoked then 1 else 0) + rec2.2.2)

/-! ## Clipboard-change wait (`AutoLayoutFixer._wait_for_clipboard_change` and
`AutoLayoutFixer._copy_selected_text_to_clipboard`)

Time is a discrete monotonic clock counting poll-interval-sized ticks;
`reads t` is what `self._read_clipboard()` observes at tick `t`.  Each loop
iteration of `_wait_for_clipboard_change` first sleeps one poll interval and
then reads, so with `interval ≥ 1` the `while time.monotonic() < deadline`
loop makes at most `timeout` iterations and the structural fuel `timeout`
below is never exhausted before the deadline test fails. -/

/-- The polling loop of `_wait_for_clipboard_change`, with explicit fuel:
while the clock is before the deadline, sleep one poll interval, read the
clipboard, skip unreadable reads and reads equal to the marker, and return
the first differing value.  Returns the result together with the clock value
at exit. -/
def waitAux (marker : String) (reads : Nat → Option String)
    (interval deadline : Nat) : Nat → Nat → Option String × Nat
  | 0, t => (none, t)
  | fuel + 1, t =>
    if t < deadline then
      match reads (t + interval) with
      | none => waitAux marker reads interval deadline fuel (t + interval)
      | some v =>
        if v = marker then waitAux marker reads interval deadline fuel (t + interval)
        else (some v, t + interval)
    else (none, t)

/-- `_wait_for_clipboard_change(marker)` entered at clock value `start`:
it computes a fresh deadline `start + timeout` and polls until the clipboard
differs from the marker or the deadline passes. -/
def wait_for_clipboard_change (interval timeout : Nat) (marker : String)
    (reads : Nat → Option String) (start : Nat) : Option String × Nat :=
  waitAux marker reads interval (start + timeout) timeout start

/-- `_copy_selected_text_to_clipboard(marker)` entered at clock value
`start`: send cmd-C via pynput, wait for a clipboard change; on timeout
attempt the Quartz low-level keystroke fallback once (`quartzAvailable`
is whether `_send_command_shortcut_quartz` succeeds, `false` covering
`Quartz is None`) and, if it succeeded, wait again — the second
`_wait_for_clipboard_change` call computes a fresh deadline of its own.
Returns the result, the clock value at exit, and the number of fallback
keystroke attempts. -/
def copy_selected_text_to_clipboard (interval timeout : Nat) (marker : String)
    (reads : Nat → Option String) (quartzAvailable : Bool) (start : Nat) :
    Option String × Nat × Nat :=
  match wait_for_clipboard_change interval timeout marker reads start with
  | (some v, t) => (some v, t, 0)
  | (none, t) =>
    if quartzAvailable then
      let r := wait_for_clipboard_change interval timeout marker reads t
      (r.1, r.2, 1)
    else (none, t, 1)

/-- Modelled from the spec: the capture wait as §4.4 words it, where after the
fallback keystroke polling "continue[s] against the same deadline", so the
whole wait is bounded by the single configured timeout.  This is the
spec-side definition for comparison; the code-side definition is
`copy_selected_text_to_clipboard` above. -/
def copySpecSameDeadline (interval timeout : Nat) (marker : String)
    (reads : Nat → Option String) (quartzAvailable : Bool) (start : Nat) :
    Option String × Nat × Nat :=
  match wait_for_clipboard_change interval timeout marker reads start with
  | (some v, t) => (some v, t, 0)
  | (none, t) =>
    if quartzAvailable then
      let r := waitAux marker reads interval (start + timeout) timeout t
      (r.1, r.2, 1)
    else (none, t, 1)

/-- Concrete clipboard history for the C4 counterexample: the clipboard holds
the marker "M" at every tick except tick 5, where the copied text "xyz"
appears. -/
def cexReads : Nat → Option String :=
  fun t => if t = 5 then some "xyz" else some "M"

/-- At tick `u` the clipboard was unreadable or still held the marker — the
two readings the polling loop skips over. -/
def markerOnly (marker : String) (reads : Nat → Option String) (u : Nat) :
    Prop :=
  reads u = none ∨ reads u = some marker

/-! ## Theorems -/

/-- Sanity: the embedded mapper reproduces the repository's own test vectors
(`tests/test_detector.py`). -/
theorem switch_layout_test_vectors :
    switch_layout "ghbdtn" "RUS" = some "привет" ∧
    switch_layout "руддщ" "EN" = some "hello" ∧
    switch_layout "Ghbdtn" "RUS" = some "Привет" ∧
    switch_layout "hello" "DE" = none := by
  decide

/-- Unfolding of `switch_layout` at the valid target `"EN"`. -/
theorem switch_layout_EN (x : String) :
    switch_layout x "EN" =
      some (String.mk (x.data.map (switchChar RU_TO_EN))) := rfl

/-- Unfolding of `switch_layout` at the valid target `"RUS"`. -/
theorem switch_layout_RUS (x : String) :
    switch_layout x "RUS" =
      some (String.mk (x.data.map (switchChar EN_TO_RU))) := rfl

/-- C1 counterexample: the claim also asserts that at each step of the round
trip a lowercase input yields a lowercase output, but the key `,` of
`EN_TO_RU` maps to the lowercase Cyrillic letter `б`, which the second step
maps back to the caseless punctuation character `,`: a lowercase input with
an output that is not lowercase. -/
theorem C1_lowercase_not_preserved :
    (',', 'б') ∈ EN_TO_RU ∧
    switch_layout "," "RUS" = some "б" ∧
    switch_layout "б" "EN" = some "," ∧
    pyIsLower 'б' = true ∧ pyIsLower ',' = false := by
  decide

/-- C1 (amended): for every key of `EN_TO_RU` and both its case forms `c`,
`switch_layout (switch_layout c "RUS") "EN" = c`; uppercase input yields
uppercase output at each step, and lowercase input never yields an
uppercase output (the image is lowercase when it is a cased letter, caseless
punctuation otherwise). -/
theorem C1_roundtrip_case (p : Char × Char) (hp : p ∈ EN_TO_RU) (c : Char)
    (hc : c = pyLower p.1 ∨ c = pyUpper p.1) :
    (switch_layout (String.singleton c) "RUS").bind
        (fun u => switch_layout u "EN") = some (String.singleton c) ∧
    (pyIsUpper c = true → pyIsUpper (switchChar EN_TO_RU c) = true) ∧
    (pyIsUpper (switchChar EN_TO_RU c) = true →
      pyIsUpper (switchChar RU_TO_EN (switchChar EN_TO_RU c)) = true) ∧
    (pyIsLower c = true → pyIsUpper (switchChar EN_TO_RU c) = false) ∧
    (pyIsLower (switchChar EN_TO_RU c) = true →
      pyIsUpper (switchChar RU_TO_EN (switchChar EN_TO_RU c)) = false) := by
  rcases hc with rfl | rfl <;> revert p <;> decide

/-- Witness for C1: the key `q` with its uppercase form `Q` round-trips. -/
theorem C1_roundtrip_case_witness :
    ('q', 'й') ∈ EN_TO_RU ∧
    (switch_layout (String.singleton 'Q') "RUS").bind
        (fun u => switch_layout u "EN") = some (String.singleton 'Q') :=
  ⟨by decide, (C1_roundtrip_case ('q', 'й') (by decide) 'Q' (by decide)).1⟩

/-- C2: on every exit path of one pipeline run — success, empty capture,
unchanged text, or an exception in capture, transform or replace — the
clipboard snapshot recorded during capture (when there is one) is written
back exactly once by the `finally` block, and the in-flight guard is cleared
unconditionally. -/
theorem C2_cleanup_every_path
    (cr : Except Unit (Option String × Option String))
    (rr : Except Unit Bool) (target : String) :
    (convert_selected_text_after_switch cr rr target).guardCleared = true ∧
    (convert_selected_text_after_switch cr rr target).restores =
      (recordedSnapshot cr).toList := by
  rcases cr with e | ⟨sel, snap⟩
  · exact ⟨rfl, rfl⟩
  · rcases sel with _ | text
    · exact ⟨rfl, rfl⟩
    · simp only [convert_selected_text_after_switch, recordedSnapshot]
      constructor <;> (repeat' split) <;> rfl

/-- C3: a trigger arriving while the in-flight guard is set is dropped with
nothing changed; a trigger arriving while it is clear sets the guard and
spawns exactly one task; consequently, along any event sequence from process
start, at most one conversion runs at any instant. -/
theorem C3_at_most_one_conversion :
    (∀ s, s.active = true → schedule_selection_conversion s = (s, false)) ∧
    (∀ s, s.active = false → schedule_selection_conversion s =
      ({ active := true, running := s.running + 1 }, true)) ∧
    (∀ evs, (runGuard initGuardState evs).running ≤ 1) := by
  refine ⟨?_, ?_, ?_⟩
  · intro s hs; simp [schedule_selection_conversion, hs]
  · intro s hs; simp [schedule_selection_conversion, hs]
  · intro evs
    suffices h : ∀ evs s, (s.active = false → s.running = 0) → s.running ≤ 1 →
        ((runGuard s evs).active = false → (runGuard s evs).running = 0) ∧
          (runGuard s evs).running ≤ 1 by
      exact (h evs initGuardState (fun _ => rfl) (by decide)).2
    intro evs
    induction evs with
    | nil => intro s h0 h1; exact ⟨h0, h1⟩
    | cons e es ih =>
      intro s h0 h1
      cases e with
      | trigger =>
        by_cases ha : s.active = true
        · have : stepGuard s .trigger = s := by
            simp [stepGuard, schedule_selection_conversion, ha]
          rw [runGuard, this]
          exact ih s h0 h1
        · have hb : s.active = false := by
            cases h : s.active
            · rfl
            · exact absurd h ha
          have hr : s.running = 0 := h0 hb
          have : stepGuard s .trigger = { active := true, running := 1 } := by
            simp [stepGuard, schedule_selection_conversion, hb, hr]
          rw [runGuard, this]
          exact ih _ (by intro h; simp at h) (by decide)
      | finish =>
        have : stepGuard s .finish =
            { active := false, running := s.running - 1 } := rfl
        rw [runGuard, this]
        exact ih _ (fun _ => by show s.running - 1 = 0; omega)
          (by show s.running - 1 ≤ 1; omega)

/-- Witness for C3: a trigger while the guard is held is dropped. -/
theorem C3_at_most_one_conversion_witness :
    schedule_selection_conversion ⟨true, 1⟩ = (⟨true, 1⟩, false) :=
  C3_at_most_one_conversion.1 ⟨true, 1⟩ rfl

/-- C5: one watcher poll step — an unreadable read keeps the previous
reading and fires nothing; a readable read is always adopted as the new
previous reading; a read equal to the previous one fires nothing; a read
differing from a known previous reading fires exactly one trigger carrying
the new layout; and when the previous reading is the initial unknown,
nothing fires. -/
theorem C5_watcher_transitions (prev cur : Option String) :
    (cur = none → poll_layout_once prev cur = (prev, [])) ∧
    (∀ c, cur = some c → (poll_layout_once prev cur).1 = some c) ∧
    (∀ c, cur = some c → prev = some c →
      (poll_layout_once prev cur).2 = []) ∧
    (∀ c p, cur = some c → prev = some p → c ≠ p →
      (poll_layout_once prev cur).2 = [c]) ∧
    (prev = none → (poll_layout_once prev cur).2 = []) := by
  refine ⟨?_, ?_, ?_, ?_, ?_⟩
  · rintro rfl; rfl
  · rintro c rfl
    rcases prev with _ | p
    · rfl
    · by_cases h : c = p <;> simp [poll_layout_once, h]
  · rintro c rfl rfl; simp [poll_layout_once]
  · rintro c p rfl rfl h; simp [poll_layout_once, h]
  · rintro rfl
    rcases cur with _ | c <;> rfl

/-- Witness for C5: previous `EN`, poll reads `RUS` — exactly one trigger
with target `RUS`. -/
theorem C5_watcher_transitions_witness :
    (poll_layout_once (some "EN") (some "RUS")).2 = ["RUS"] :=
  (C5_watcher_transitions (some "EN") (some "RUS")).2.2.2.1 "RUS" "EN" rfl rfl
    (by decide)

/-- C6: if the captured text is empty or absent, or the transformed text
equals the captured text, `_replace_selected_text` is never called, while
the clipboard snapshot (if any) is still restored. -/
theorem C6_pipeline_noop_laws (rr : Except Unit Bool) (target : String)
    (sel snap : Option String)
    (h : sel = none ∨ sel = some "" ∨
      ∃ text, sel = some text ∧ switch_layout text target = some text) :
    (convert_selected_text_after_switch (.ok (sel, snap)) rr
        target).replaceCalls = [] ∧
    (convert_selected_text_after_switch (.ok (sel, snap)) rr
        target).restores = snap.toList := by
  rcases h with rfl | rfl | ⟨text, rfl, hfix⟩
  · exact ⟨rfl, rfl⟩
  · exact ⟨rfl, rfl⟩
  · simp only [convert_selected_text_after_switch]
    by_cases he : text = ""
    · simp [he]
    · simp [he, hfix]

/-- Witness for C6: text `123` is untouched by the mapper, so the pipeline
performs no replace and restores the snapshot `old`. -/
theorem C6_pipeline_noop_laws_witness :
    (convert_selected_text_after_switch (.ok (some "123", some "old"))
        (.ok true) "RUS").replaceCalls = [] ∧
    (convert_selected_text_after_switch (.ok (some "123", some "old"))
        (.ok true) "RUS").restores = (some "old").toList :=
  C6_pipeline_noop_laws (.ok true) "RUS" (some "123") (some "old")
    (Or.inr (Or.inr ⟨"123", rfl, by decide⟩))

/-- C8: a character whose lowercase and uppercase forms are both absent from
the mapping table of the chosen direction passes through `switch_layout`
unchanged, for both valid target layouts. -/
theorem C8_identity_outside_alphabet (c : Char) (L : String)
    (hL : L = "EN" ∨ L = "RUS")
    (h1 : ((if L == "RUS" then EN_TO_RU else RU_TO_EN).lookup (pyLower c)) =
      none)
    (h2 : ((if L == "RUS" then EN_TO_RU else RU_TO_EN).lookup (pyUpper c)) =
      none) :
    switch_layout (String.singleton c) L = some (String.singleton c) := by
  rcases hL with rfl | rfl
  · have h1' : RU_TO_EN.lookup (pyLower c) = none := h1
    show some (String.mk [switchChar RU_TO_EN c]) = some (String.singleton c)
    simp only [switchChar, h1']
    rfl
  · have h1' : EN_TO_RU.lookup (pyLower c) = none := h1
    show some (String.mk [switchChar EN_TO_RU c]) = some (String.singleton c)
    simp only [switchChar, h1']
    rfl

/-- Witness for C8: the space character passes through unchanged. -/
theorem C8_identity_outside_alphabet_witness :
    switch_layout (String.singleton ' ') "EN" =
      some (String.singleton ' ') :=
  C8_identity_outside_alphabet ' ' "EN" (Or.inl rfl) (by decide) (by decide)

/-- C9: for a valid target layout, `switch_layout` is a character-wise
homomorphism — it maps concatenation to concatenation, preserves length,
and maps the empty string to the empty string. -/
theorem C9_homomorphism (L : String) (hL : L = "EN" ∨ L = "RUS")
    (s t : String) :
    switch_layout (s ++ t) L =
      (switch_layout s L).bind
        (fun u => (switch_layout t L).map (fun v => u ++ v)) ∧
    (∀ u, switch_layout s L = some u → u.length = s.length) ∧
    switch_layout "" L = some "" := by
  obtain ⟨ds⟩ := s
  obtain ⟨dt⟩ := t
  rcases hL with rfl | rfl
  · refine ⟨?_, ?_, rfl⟩
    · show some (String.mk ((ds ++ dt).map (switchChar RU_TO_EN))) =
        some (String.mk
          (ds.map (switchChar RU_TO_EN) ++ dt.map (switchChar RU_TO_EN)))
      rw [List.map_append]
    · intro u hu
      rw [switch_layout_EN] at hu
      injection hu with hu
      subst hu
      show (ds.map (switchChar RU_TO_EN)).length = ds.length
      simp
  · refine ⟨?_, ?_, rfl⟩
    · show some (String.mk ((ds ++ dt).map (switchChar EN_TO_RU))) =
        some (String.mk
          (ds.map (switchChar EN_TO_RU) ++ dt.map (switchChar EN_TO_RU)))
      rw [List.map_append]
    · intro u hu
      rw [switch_layout_RUS] at hu
      injection hu with hu
      subst hu
      show (ds.map (switchChar EN_TO_RU)).length = ds.length
      simp

/-- Witness for C9: concatenation law at `"ab" ++ "c"` under target `EN`. -/
theorem C9_homomorphism_witness :
    switch_layout ("ab" ++ "c") "EN" =
      (switch_layout "ab" "EN").bind
        (fun u => (switch_layout "c" "EN").map (fun v => u ++ v)) :=
  (C9_homomorphism "EN" (Or.inl rfl) "ab" "c").1

/-- C10: in clipboard-mediated replace, a failed clipboard write makes
`_replace_selected_text` return failure without sending the paste
keystroke, and the paste keystroke is only ever sent after a successful
clipboard write. -/
theorem C10_no_paste_on_failed_write (axOk cwOk : Bool) (text : String) :
    (axOk = false → cwOk = false →
      replace_selected_text axOk cwOk text = ⟨[text], false, false⟩) ∧
    ((replace_selected_text axOk cwOk text).pasteSent = true →
      cwOk = true ∧
        (replace_selected_text axOk cwOk text).clipboardWrites = [text]) := by
  cases axOk <;> cases cwOk <;> simp [replace_selected_text]

/-- Witness for C10: accessibility write and clipboard write both fail. -/
theorem C10_no_paste_on_failed_write_witness :
    replace_selected_text false false "a" = ⟨["a"], false, false⟩ :=
  (C10_no_paste_on_failed_write false false "a").1 rfl rfl

/-! ### Lemmas about the clipboard polling loop -/

/-- The polling loop never rewinds the clock. -/
theorem waitAux_ge (m : String) (reads : Nat → Option String) (I d : Nat) :
    ∀ fuel t, t ≤ (waitAux m reads I d fuel t).2 := by
  intro fuel
  induction fuel with
  | zero => intro t; exact le_refl t
  | succ n ih =>
    intro t
    rw [waitAux]
    split
    · split
      · exact le_trans (Nat.le_add_right t I) (ih (t + I))
      · split
        · exact le_trans (Nat.le_add_right t I) (ih (t + I))
        · exact Nat.le_add_right t I
    · exact le_refl t

/-- The polling loop exits at most one poll interval past the deadline. -/
theorem waitAux_le (m : String) (reads : Nat → Option String) (I d : Nat) :
    ∀ fuel t, (waitAux m reads I d fuel t).2 ≤ max t (d + I) := by
  intro fuel
  induction fuel with
  | zero => intro t; exact le_max_left t (d + I)
  | succ n ih =>
    intro t
    rw [waitAux]
    split
    · have hstep : t + I ≤ d + I := by omega
      split
      · exact le_trans (ih (t + I))
          (max_le (le_trans hstep (le_max_right _ _)) (le_max_right _ _))
      · split
        · exact le_trans (ih (t + I))
            (max_le (le_trans hstep (le_max_right _ _)) (le_max_right _ _))
        · exact le_trans hstep (le_max_right _ _)
    · exact le_max_left t (d + I)

/-- The polling loop exits at a whole number of poll intervals past its
entry time. -/
theorem waitAux_align (m : String) (reads : Nat → Option String) (I d : Nat) :
    ∀ fuel t, ∃ k, (waitAux m reads I d fuel t).2 = t + k * I := by
  intro fuel
  induction fuel with
  | zero => intro t; exact ⟨0, by simp [waitAux]⟩
  | succ n ih =>
    intro t
    rw [waitAux]
    split
    · split
      · obtain ⟨k, hk⟩ := ih (t + I)
        exact ⟨k + 1, by rw [hk, Nat.succ_mul]; omega⟩
      · split
        · obtain ⟨k, hk⟩ := ih (t + I)
          exact ⟨k + 1, by rw [hk, Nat.succ_mul]; omega⟩
        · exact ⟨1, by simp⟩
    · exact ⟨0, by simp⟩

/-- When the polling loop returns a value, that value was read from the
clipboard at the exit tick, differs from the marker, and every strictly
earlier poll of this loop saw the clipboard unreadable or equal to the
marker: the first differing value is returned. -/
theorem waitAux_some (m : String) (reads : Nat → Option String) (I d : Nat) :
    ∀ fuel t v te, waitAux m reads I d fuel t = (some v, te) →
      v ≠ m ∧ reads te = some v ∧ (∃ k, 1 ≤ k ∧ te = t + k * I) ∧
        ∀ j, 1 ≤ j → t + j * I < te → markerOnly m reads (t + j * I) := by
  intro fuel
  induction fuel with
  | zero => intro t v te h; simp [waitAux] at h
  | succ n ih =>
    intro t v te h
    rw [waitAux] at h
    split at h
    · split at h
      · rename_i heq
        obtain ⟨hvm, hrd, ⟨k, hk1, hk⟩, hclean⟩ := ih _ _ _ h
        refine ⟨hvm, hrd, ⟨k + 1, by omega, by rw [hk, Nat.succ_mul]; omega⟩, ?_⟩
        intro j hj hlt
        by_cases hj1 : j = 1
        · subst hj1
          left
          rw [Nat.one_mul]
          exact heq
        · obtain ⟨j', rfl⟩ : ∃ j', j = j' + 1 := ⟨j - 1, by omega⟩
          have h1j : 1 ≤ j' := by omega
          have harith : t + (j' + 1) * I = (t + I) + j' * I := by
            rw [Nat.succ_mul]; omega
          rw [harith] at hlt ⊢
          exact hclean j' h1j hlt
      · rename_i v' heq
        split at h
        · rename_i hvm'
          obtain ⟨hvm, hrd, ⟨k, hk1, hk⟩, hclean⟩ := ih _ _ _ h
          refine ⟨hvm, hrd, ⟨k + 1, by omega, by rw [hk, Nat.succ_mul]; omega⟩, ?_⟩
          intro j hj hlt
          by_cases hj1 : j = 1
          · subst hj1
            right
            rw [Nat.one_mul, heq, hvm']
          · obtain ⟨j', rfl⟩ : ∃ j', j = j' + 1 := ⟨j - 1, by omega⟩
            have h1j : 1 ≤ j' := by omega
            have harith : t + (j' + 1) * I = (t + I) + j' * I := by
              rw [Nat.succ_mul]; omega
            rw [harith] at hlt ⊢
            exact hclean j' h1j hlt
        · rename_i hvm'
          injection h with h1 h2
          injection h1 with h1
          subst h1
          subst h2
          refine ⟨hvm', heq, ⟨1, le_refl 1, by rw [Nat.one_mul]⟩, ?_⟩
          intro j hj hlt
          exfalso
          have hmul : 1 * I ≤ j * I := Nat.mul_le_mul_right I hj
          omega
    · simp at h

/-- When the polling loop times out, every poll it made up to its exit tick
saw the clipboard unreadable or equal to the marker. -/
theorem waitAux_none (m : String) (reads : Nat → Option String) (I d : Nat)
    (hI : 1 ≤ I) :
    ∀ fuel t te, waitAux m reads I d fuel t = (none, te) →
      ∀ j, 1 ≤ j → t + j * I ≤ te → markerOnly m reads (t + j * I) := by
  intro fuel
  induction fuel with
  | zero =>
    intro t te h j hj hle
    rw [waitAux] at h
    injection h with h1 h2
    subst h2
    exfalso
    have hmul : 1 * I ≤ j * I := Nat.mul_le_mul_right I hj
    omega
  | succ n ih =>
    intro t te h j hj hle
    rw [waitAux] at h
    split at h
    · split at h
      · rename_i heq
        by_cases hj1 : j = 1
        · subst hj1
          left
          rw [Nat.one_mul]
          exact heq
        · obtain ⟨j', rfl⟩ : ∃ j', j = j' + 1 := ⟨j - 1, by omega⟩
          have h1j : 1 ≤ j' := by omega
          have harith : t + (j' + 1) * I = (t + I) + j' * I := by
            rw [Nat.succ_mul]; omega
          rw [harith] at hle ⊢
          exact ih _ _ h j' h1j hle
      · rename_i v' heq
        split at h
        · rename_i hvm'
          by_cases hj1 : j = 1
          · subst hj1
            right
            rw [Nat.one_mul, heq, hvm']
          · obtain ⟨j', rfl⟩ : ∃ j', j = j' + 1 := ⟨j - 1, by omega⟩
            have h1j : 1 ≤ j' := by omega
            have harith : t + (j' + 1) * I = (t + I) + j' * I := by
              rw [Nat.succ_mul]; omega
            rw [harith] at hle ⊢
            exact ih _ _ h j' h1j hle
        · simp at h
    · injection h with h1 h2
      subst h2
      exfalso
      have hmul : 1 * I ≤ j * I := Nat.mul_le_mul_right I hj
      omega

/-- `wait_for_clipboard_change` never rewinds the clock. -/
theorem wait_ge (I T : Nat) (m : String) (reads : Nat → Option String)
    (s0 : Nat) : s0 ≤ (wait_for_clipboard_change I T m reads s0).2 :=
  waitAux_ge m reads I (s0 + T) T s0

/-- `wait_for_clipboard_change` exits at most one poll interval past its
own deadline `start + timeout`. -/
theorem wait_le (I T : Nat) (m : String) (reads : Nat → Option String)
    (s0 : Nat) :
    (wait_for_clipboard_change I T m reads s0).2 ≤ s0 + T + I :=
  le_trans (waitAux_le m reads I (s0 + T) T s0)
    (max_le (by omega) (le_refl _))

/-- `wait_for_clipboard_change` exits a whole number of poll intervals
after it starts. -/
theorem wait_align (I T : Nat) (m : String) (reads : Nat → Option String)
    (s0 : Nat) :
    ∃ k, (wait_for_clipboard_change I T m reads s0).2 = s0 + k * I :=
  waitAux_align m reads I (s0 + T) T s0

/-- First-differing-value property of one `wait_for_clipboard_change` call. -/
theorem wait_some (I T : Nat) (m : String) (reads : Nat → Option String)
    (s0 : Nat) (v : String) (te : Nat)
    (h : wait_for_clipboard_change I T m reads s0 = (some v, te)) :
    v ≠ m ∧ reads te = some v ∧ (∃ k, 1 ≤ k ∧ te = s0 + k * I) ∧
      ∀ j, 1 ≤ j → s0 + j * I < te → markerOnly m reads (s0 + j * I) :=
  waitAux_some m reads I (s0 + T) T s0 v te h

/-- Timeout property of one `wait_for_clipboard_change` call. -/
theorem wait_none (I T : Nat) (m : String) (reads : Nat → Option String)
    (s0 : Nat) (te : Nat) (hI : 1 ≤ I)
    (h : wait_for_clipboard_change I T m reads s0 = (none, te)) :
    ∀ j, 1 ≤ j → s0 + j * I ≤ te → markerOnly m reads (s0 + j * I) :=
  waitAux_none m reads I (s0 + T) hI T s0 te h

/-- C4 counterexample: with poll interval 1, timeout 3 and a clipboard that
still equals the marker at the single deadline tick 3 but shows "xyz" at
tick 5, the code's capture returns "xyz" observed at tick 5 — after the
single configured timeout — because the fallback re-enters the polling loop
with a fresh deadline, whereas the spec-modelled same-deadline wait returns
absent.  This refutes "polling then continues against the same deadline
(the overall wait is bounded by the single configured clipboard-change wait
timeout)". -/
theorem C4_second_wait_fresh_deadline :
    copy_selected_text_to_clipboard 1 3 "M" cexReads true 0 =
      (some "xyz", 5, 1) ∧
    copySpecSameDeadline 1 3 "M" cexReads true 0 = (none, 3, 1) ∧
    wait_for_clipboard_change 1 3 "M" cexReads 0 = (none, 3) ∧
    ¬((5 : Nat) ≤ 0 + 3) := by
  decide

/-- C4 (amended): after the primary copy keystroke the clipboard is polled
at the fixed interval until it differs from the marker or the deadline
passes; the low-level fallback keystroke is attempted exactly once, exactly
when the first polling pass observed no change, and polling then restarts
against a fresh deadline of the same configured duration, so the overall
wait is bounded by two timeout windows (plus one poll interval each); the
first polled value differing from the marker is returned, and none is
returned only when every poll up to the exit tick saw the clipboard
unreadable or still equal to the marker. -/
theorem C4_capture_wait (I T : Nat) (m : String)
    (reads : Nat → Option String) (q : Bool) (s0 : Nat) (hI : 1 ≤ I)
    (res : Option String × Nat × Nat)
    (hres : copy_selected_text_to_clipboard I T m reads q s0 = res) :
    res.2.1 ≤ s0 + 2 * (T + I) ∧
    res.2.2 ≤ 1 ∧
    (res.2.2 = 1 ↔ (wait_for_clipboard_change I T m reads s0).1 = none) ∧
    (∀ v, res.1 = some v → v ≠ m ∧ reads res.2.1 = some v ∧
      ∀ j, 1 ≤ j → s0 + j * I < res.2.1 → markerOnly m reads (s0 + j * I)) ∧
    (res.1 = none → ∀ j, 1 ≤ j → s0 + j * I ≤ res.2.1 →
      markerOnly m reads (s0 + j * I)) := by
  subst hres
  rcases h1 : wait_for_clipboard_change I T m reads s0 with ⟨r1, t1⟩
  have hle1 : t1 ≤ s0 + T + I := by
    have hw := wait_le I T m reads s0
    rw [h1] at hw
    exact hw
  cases r1 with
  | some v =>
    have hcopy : copy_selected_text_to_clipboard I T m reads q s0 =
        (some v, t1, 0) := by
      simp [copy_selected_text_to_clipboard, h1]
    rw [hcopy]
    obtain ⟨hvm, hrd, _, hclean⟩ := wait_some I T m reads s0 v t1 h1
    refine ⟨?_, ?_, ?_, ?_, ?_⟩
    · show t1 ≤ s0 + 2 * (T + I)
      omega
    · show (0 : Nat) ≤ 1
      omega
    · simp
    · intro v' hv'
      have hv : v = v' := by simpa using hv'
      subst hv
      exact ⟨hvm, hrd, hclean⟩
    · intro hcontra
      exact absurd hcontra (by simp)
  | none =>
    cases q with
    | false =>
      have hcopy : copy_selected_text_to_clipboard I T m reads false s0 =
          (none, t1, 1) := by
        simp [copy_selected_text_to_clipboard, h1]
      rw [hcopy]
      refine ⟨?_, ?_, ?_, ?_, ?_⟩
      · show t1 ≤ s0 + 2 * (T + I)
        omega
      · show (1 : Nat) ≤ 1
        omega
      · simp
      · intro v hv
        exact absurd hv (by simp)
      · intro _ j hj hle
        exact wait_none I T m reads s0 t1 hI h1 j hj hle
    | true =>
      rcases h2 : wait_for_clipboard_change I T m reads t1 with ⟨r2, t2⟩
      have hcopy : copy_selected_text_to_clipboard I T m reads true s0 =
          (r2, t2, 1) := by
        simp [copy_selected_text_to_clipboard, h1, h2]
      rw [hcopy]
      have hle2 : t2 ≤ t1 + T + I := by
        have hw := wait_le I T m reads t1
        rw [h2] at hw
        exact hw
      obtain ⟨k, hk⟩ := wait_align I T m reads s0
      rw [h1] at hk
      have hk1 : t1 = s0 + k * I := hk
      refine ⟨?_, ?_, ?_, ?_, ?_⟩
      · show t2 ≤ s0 + 2 * (T + I)
        omega
      · show (1 : Nat) ≤ 1
        omega
      · simp
      · intro v hv
        have hr2 : r2 = some v := hv
        subst hr2
        obtain ⟨hvm, hrd, _, hclean2⟩ := wait_some I T m reads t1 v t2 h2
        refine ⟨hvm, hrd, ?_⟩
        intro j hj hlt
        by_cases hcase : s0 + j * I ≤ t1
        · exact wait_none I T m reads s0 t1 hI h1 j hj hcase
        · push_neg at hcase
          have hkj : k < j := by
            by_contra hc
            push_neg at hc
            have hmm : j * I ≤ k * I := Nat.mul_le_mul_right I hc
            omega
          have hjk1 : 1 ≤ j - k := by omega
          have hsub : (j - k) * I = j * I - k * I := Nat.sub_mul j k I
          have hmulle : k * I ≤ j * I := Nat.mul_le_mul_right I (le_of_lt hkj)
          have harith : s0 + j * I = t1 + (j - k) * I := by omega
          rw [harith] at hlt ⊢
          exact hclean2 (j - k) hjk1 hlt
      · intro hr2 j hj hle
        have hr2' : r2 = none := hr2
        subst hr2'
        by_cases hcase : s0 + j * I ≤ t1
        · exact wait_none I T m reads s0 t1 hI h1 j hj hcase
        · push_neg at hcase
          have hkj : k < j := by
            by_contra hc
            push_neg at hc
            have hmm : j * I ≤ k * I := Nat.mul_le_mul_right I hc
            omega
          have hjk1 : 1 ≤ j - k := by omega
          have hsub : (j - k) * I = j * I - k * I := Nat.sub_mul j k I
          have hmulle : k * I ≤ j * I := Nat.mul_le_mul_right I (le_of_lt hkj)
          have harith : s0 + j * I = t1 + (j - k) * I := by omega
          rw [harith] at hle ⊢
          exact wait_none I T m reads t1 t2 hI h2 (j - k) hjk1 hle

/-- Witness for C4: interval 1, timeout 2, an always-unreadable clipboard
and no Quartz fallback — capture times out at tick 2, within the bound. -/
theorem C4_capture_wait_witness :
    copy_selected_text_to_clipboard 1 2 "M" (fun _ => none) false 0 =
      (none, 2, 1) ∧
    ((none, 2, 1) : Option String × Nat × Nat).2.1 ≤ 0 + 2 * (2 + 1) :=
  ⟨by decide,
    (C4_capture_wait 1 2 "M" (fun _ => none) false 0 (by decide)
      ((none, 2, 1)) (by decide)).1⟩

/-! ### Lemmas about the accessibility permission checks -/

/-- Once `_ax_warning_logged` is set, no later check logs the warning. -/
theorem axChecks_warned_stays (checks : List AxCheckInput) :
    (runAxChecks true checks).2.1 = 0 := by
  induction checks with
  | nil => rfl
  | cons i rest ih =>
    rcases i with ⟨hi, tr, pf, hp⟩
    cases hi <;> cases tr <;>
      simp [runAxChecks, check_ax_permission, ih]

/-- Over any sequence of checks the warning is logged at most once. -/
theorem axChecks_warn_le (checks : List AxCheckInput) :
    ∀ w, (runAxChecks w checks).2.1 ≤ 1 := by
  induction checks with
  | nil => intro w; simp [runAxChecks]
  | cons i rest ih =>
    intro w
    rcases i with ⟨hi, tr, pf, hp⟩
    cases w <;> cases hi <;> cases tr <;>
      simp [runAxChecks, check_ax_permission, axChecks_warned_stays, ih]

/-- The OS prompt fires on exactly the prompting-enabled checks that find
the permission missing, independently of the warning flag. -/
theorem axChecks_prompts (checks : List AxCheckInput) :
    ∀ w, (runAxChecks w checks).2.2 =
      (checks.filter (fun i =>
        i.hiAvailable && !i.trusted && i.promptFlag && i.hasPromptFn)).length := by
  induction checks with
  | nil => intro w; rfl
  | cons i rest ih =>
    intro w
    rcases i with ⟨hi, tr, pf, hp⟩
    cases hi <;> cases tr <;> cases pf <;> cases hp <;>
      (simp [runAxChecks, check_ax_permission, List.filter, ih]; try omega)

/-- C7 counterexample: a run whose startup check and one later
permission-disabled read failure both find the permission missing invokes
the OS permission prompt twice, not at most once; only the log warning is
emitted once. -/
theorem C7_prompt_twice :
    (runAxChecks false
      [⟨true, false, true, true⟩, ⟨true, false, true, true⟩]).2.2 = 2 ∧
    (runAxChecks false
      [⟨true, false, true, true⟩, ⟨true, false, true, true⟩]).2.1 = 1 := by
  decide

/-- C7 (amended): across a process run the permission-missing warning is
logged at most once; the OS permission prompt is invoked on every
prompting-enabled check that finds the permission missing (the startup
check and each accessibility read failing with the permission-disabled
error), not at most once; and every check returns the live grant state. -/
theorem C7_warn_once_prompt_each_failure (checks : List AxCheckInput) :
    (runAxChecks false checks).2.1 ≤ 1 ∧
    (runAxChecks false checks).2.2 =
      (checks.filter (fun i =>
        i.hiAvailable && !i.trusted && i.promptFlag && i.hasPromptFn)).length ∧
    ∀ w i, (check_ax_permission w i).granted = (i.hiAvailable && i.trusted) := by
  refine ⟨axChecks_warn_le checks false, axChecks_prompts checks false, ?_⟩
  intro w i
  rcases i with ⟨hi, tr, pf, hp⟩
  cases hi <;> cases tr <;> simp [check_ax_permission]
